import Mathlib

/-!
Shallow embedding of `src/sortabletable/sortabletable.tsx`
(the `SortableTable` React component) and proofs about its
observable rendering contract.

Modelling conventions:
* React nodes produced by caller callbacks (`title`, `cell`, `expandedContent`,
  `renderNoResult`) are an opaque type parameter `ν`.
* `sortKey` values are JavaScript values compared with `===`; we model them by
  `SortKeyVal K`, distinguishing `undefined`, `null` and proper keys drawn from
  a type `K` with decidable equality.
* `classnames/bind` (the `cx` helper) drops falsy entries; we model a class
  list as a `List String` with empty strings filtered out.
* Callback invocations (`onChangeSortSetting`, `onChangeExpansion`) are
  modelled by returning the list of argument tuples the handler would pass,
  in order; an empty list means the callback is never invoked.
* `count` is a JavaScript number used as an integer; we model it as `Int`.
  lodash `times(n, f)` returns `[]` for `n < 1`; we model that check (the
  additional guard for non-safe doubles is out of scope of an integer model).
* React component state is `CompState`; `activeIndex` is initialised to `NaN`
  (modelled by `JSNum.nan`) and the component contains no `setState` call.
-/

/-- A JavaScript sort-key value as used by the component: `undefined`,
`null`, or a proper key compared by `===`. -/
inductive SortKeyVal (K : Type) where
  | undef : SortKeyVal K
  | null : SortKeyVal K
  | key (k : K) : SortKeyVal K
deriving DecidableEq, Repr

/-- `SortSetting` from the source: the caller-owned sort state. -/
structure SortSetting (K : Type) where
  sortKey : SortKeyVal K
  ascending : Bool
deriving DecidableEq, Repr

/-- `titleAlign` enum of a column. -/
inductive Align where
  | left : Align
  | right : Align
  | center : Align
deriving DecidableEq, Repr

/-- `SortableColumn` from the source. `cell` produces the contents for a row
index; `sortKey = undef` models an absent (`undefined`) sort key. -/
structure SortableColumn (K ν : Type) where
  title : ν
  cell : Nat → ν
  rollup : Option ν := none
  sortKey : SortKeyVal K := SortKeyVal.undef
  className : Option String := none
  titleAlign : Option Align := none

/-- `ExpandableConfig` from the source. `onChangeExpansion` is a caller
callback; its invocations are modelled as emitted `(rowIndex, expanded)`
pairs, so only the query functions appear here. -/
structure ExpandableConfig (ν : Type) where
  rowIsExpanded : Nat → Bool
  expandedContent : Nat → ν

/-- `TableProps` from the source. `onChangeSortSetting` is modelled by the
lists of settings emitted by `clickSortCalls`. Defaults mirror
`SortableTable.defaultProps`. -/
structure TableProps (K ν ε : Type) where
  count : Int
  columns : List (SortableColumn K ν)
  sortSetting : SortSetting K := ⟨SortKeyVal.null, false⟩
  className : Option String := none
  rowClass : Nat → String := fun _ => ""
  expandableConfig : Option (ExpandableConfig ν) := none
  firstCellBordered : Bool := false
  renderNoResult : Option ν := none
  loading : Bool := false
  loadingLabel : Option String := none
  empty : Bool := false
  emptyProps : Option ε := none

/-- A JavaScript number that may be `NaN` (`x === y` is false whenever either
side is `NaN`). -/
inductive JSNum where
  | nan : JSNum
  | int (n : Int) : JSNum
deriving DecidableEq, Repr

/-- `===` between a possibly-`NaN` number and a row index. -/
def jsNumEqNat : JSNum → Nat → Bool
  | JSNum.nan, _ => false
  | JSNum.int a, i => a == (i : Int)

/-- The component's internal React state (`visible`, `activeIndex`). -/
structure CompState where
  visible : Bool
  activeIndex : JSNum

/-- The state installed by the field initialiser; the component never calls
`setState`, so this is the state of every render. -/
def initialState : CompState := ⟨false, JSNum.nan⟩

/-- `classnames` semantics: falsy entries (empty strings) are dropped. -/
def cxList (l : List String) : List String := l.filter (fun s => s ≠ "")

/-- An optional `className` prop rendered through `cx`. -/
def optClass : Option String → List String
  | none => []
  | some s => [s]

/-- `clickSort` from the source: given the current sort setting and the
clicked key, the setting passed to `onChangeSortSetting`. -/
def clickSort {K : Type} [DecidableEq K] (ss : SortSetting K)
    (clickedSortKey : SortKeyVal K) : SortSetting K :=
  if ss.sortKey = clickedSortKey then
    if !ss.ascending then ⟨clickedSortKey, true⟩
    else ⟨SortKeyVal.null, false⟩
  else ⟨clickedSortKey, false⟩

/-- The list of `onChangeSortSetting` invocations performed by one call to
`clickSort` (the handler body calls it exactly once). -/
def clickSortCalls {K : Type} [DecidableEq K] (ss : SortSetting K)
    (clickedSortKey : SortKeyVal K) : List (SortSetting K) :=
  [clickSort ss clickedSortKey]

/-- C1: `clickSort(K)` invokes `onChangeSortSetting` exactly once, with
`{sortKey := K, ascending := false}` when `K` differs from the current
`sortKey`; with `{sortKey := K, ascending := true}` when `K` equals the
current `sortKey` and `ascending` is false; and with
`{sortKey := null, ascending := false}` when `K` equals the current
`sortKey` and `ascending` is true. -/
theorem clickSort_tristate {K : Type} [DecidableEq K]
    (ss : SortSetting K) (k : SortKeyVal K) :
    (ss.sortKey ≠ k → clickSortCalls ss k = [⟨k, false⟩]) ∧
    (ss.sortKey = k → ss.ascending = false → clickSortCalls ss k = [⟨k, true⟩]) ∧
    (ss.sortKey = k → ss.ascending = true →
      clickSortCalls ss k = [⟨SortKeyVal.null, false⟩]) := by
  refine ⟨fun h => ?_, fun h ha => ?_, fun h ha => ?_⟩
  · simp [clickSortCalls, clickSort, h]
  · simp [clickSortCalls, clickSort, h, ha]
  · simp [clickSortCalls, clickSort, h, ha]

/-- Witness for `clickSort_tristate` at concrete inputs. -/
theorem clickSort_tristate_witness :
    clickSortCalls (K := String) ⟨SortKeyVal.key "age", false⟩
      (SortKeyVal.key "age") = [⟨SortKeyVal.key "age", true⟩] :=
  (clickSort_tristate ⟨SortKeyVal.key "age", false⟩ (SortKeyVal.key "age")).2.1
    rfl rfl

/-- C9: starting from any setting whose `sortKey` differs from the clicked
key `K`, three successive `clickSort(K)` calls (feeding each emitted setting
back in) pass through `{K, false}` then `{K, true}` and end with the cleared
setting `{null, false}`. -/
theorem clickSort_cycle {K : Type} [DecidableEq K]
    (ss : SortSetting K) (k : SortKeyVal K) (h : ss.sortKey ≠ k) :
    clickSort ss k = ⟨k, false⟩ ∧
    clickSort (clickSort ss k) k = ⟨k, true⟩ ∧
    clickSort (clickSort (clickSort ss k) k) k = ⟨SortKeyVal.null, false⟩ := by
  refine ⟨?_, ?_, ?_⟩ <;> simp [clickSort, h]

/-- Witness for `clickSort_cycle` at concrete inputs. -/
theorem clickSort_cycle_witness :
    clickSort (K := String) ⟨SortKeyVal.null, false⟩ (SortKeyVal.key "age")
        = ⟨SortKeyVal.key "age", false⟩ ∧
    clickSort (K := String) ⟨SortKeyVal.key "age", false⟩ (SortKeyVal.key "age")
        = ⟨SortKeyVal.key "age", true⟩ ∧
    clickSort (K := String) ⟨SortKeyVal.key "age", true⟩ (SortKeyVal.key "age")
        = ⟨SortKeyVal.null, false⟩ := by
  have h := clickSort_cycle (K := String) ⟨SortKeyVal.null, false⟩
    (SortKeyVal.key "age") (by decide)
  exact ⟨h.1, by rw [← h.1]; exact h.2.1, by rw [← h.2.1]; exact h.2.2⟩

/-- One `<td>` of a body row: the expansion control, a data cell rendering
`column.cell(rowIndex)`, the bare `<td />` of the expanded-content row, or
the column-spanning expanded-content cell. -/
inductive TCell (ν : Type) where
  | expansionControl (classes : List String) (glyph : String) : TCell ν
  | data (classes : List String) (content : ν) : TCell ν
  | blank : TCell ν
  | span (classes : List String) (colSpan : Nat) (content : ν) : TCell ν

/-- Which `<tr>` of `renderRow`'s output a row is: the main body data row,
the zero-content spacer, or the expanded-content row. -/
inductive RowKind where
  | data : RowKind
  | spacer : RowKind
  | expandedArea : RowKind
deriving DecidableEq, Repr

/-- A `<tr>` emitted into the table body. `clickCalls` lists the
`onChangeExpansion (rowIndex, expanded)` invocations performed when the
row's `onClick` handler fires. -/
structure BodyRow (ν : Type) where
  kind : RowKind
  key : Nat
  classes : List String
  cells : List (TCell ν)
  clickCalls : List (Nat × Bool)

/-- A `<th>` of the header row. `onClick` holds the sort key captured by the
attached handler (`none` models an `undefined` handler). -/
structure HeaderCell (K ν : Type) where
  classes : List String
  title : ν
  onClick : Option (SortKeyVal K)
  titleAlign : Option Align
  sortActions : Bool

/-- The `<thead>` row: a leading blank `<th>` when expansion is enabled,
then one `HeaderCell` per column. -/
structure HeaderRow (K ν : Type) where
  classes : List String
  leadingBlank : Bool
  cells : List (HeaderCell K ν)

/-- The non-empty-state output of `render`: wrapper `<div>`, `<table>` with
header and body, then the optional loading indicator and the optional
"no results" `<div>`. -/
structure TableView (K ν : Type) where
  wrapperClasses : List String
  tableClasses : List String
  headerRow : HeaderRow K ν
  bodyRows : List (BodyRow ν)
  loadingIndicator : Option (Option String)
  noResults : Option (Option ν)

/-- The full output of `render`: either the external `Empty` view with the
passthrough `emptyProps`, or the table structure. -/
inductive Rendered (K ν ε : Type) where
  | emptyView (props : Option ε) : Rendered K ν ε
  | table (t : TableView K ν) : Rendered K ν ε

/-- `expansionControl` from the source: the toggle `<td>` with its glyph. -/
def expansionControl {ν : Type} (expanded : Bool) : TCell ν :=
  TCell.expansionControl
    (cxList ["sort-table__cell", "sort-table__cell__expansion-control"])
    (if expanded then "▼" else "▶")

/-- The `classes` local of `renderRow`: structural classes, the
`drawer-active` flag keyed on `state.activeIndex === rowIndex`, the
caller-supplied row class, and the expandable marker. -/
def rowStripeClasses {K ν ε : Type} (props : TableProps K ν ε)
    (st : CompState) (rowIndex : Nat) : List String :=
  cxList (["sort-table__row", "sort-table__row--body",
    (if jsNumEqNat st.activeIndex rowIndex then "drawer-active" else ""),
    props.rowClass rowIndex] ++
    (if props.expandableConfig.isSome then ["sort-table__row--expandable"]
     else []))

/-- One data `<td>` of a body row: `column.cell(rowIndex)` with the cell
classes from the source. -/
def bodyDataCell {K ν ε : Type} (props : TableProps K ν ε)
    (rowIndex colIndex : Nat) (c : SortableColumn K ν) : TCell ν :=
  TCell.data
    (cxList (["sort-table__cell",
      (if props.firstCellBordered && colIndex == 0 then
        "sort-table__cell--header" else "")] ++ optClass c.className))
    (c.cell rowIndex)

/-- `renderRow` from the source: the body data row, plus the spacer row and
the expanded-content row when expansion is enabled and the row is expanded. -/
def renderRow {K ν ε : Type} (props : TableProps K ν ε) (st : CompState)
    (rowIndex : Nat) : List (BodyRow ν) :=
  let classes := rowStripeClasses props st rowIndex
  let expanded := match props.expandableConfig with
    | some cfg => cfg.rowIsExpanded rowIndex
    | none => false
  let baseRow : BodyRow ν :=
    { kind := RowKind.data
      key := rowIndex
      classes := classes
      cells :=
        (if props.expandableConfig.isSome then [expansionControl expanded]
         else []) ++
        props.columns.mapIdx (fun ci c => bodyDataCell props rowIndex ci c)
      clickCalls :=
        if props.expandableConfig.isSome then [(rowIndex, !expanded)]
        else [] }
  match props.expandableConfig with
  | some cfg =>
    if cfg.rowIsExpanded rowIndex then
      [baseRow,
       { kind := RowKind.spacer, key := 2, classes := classes, cells := [],
         clickCalls := [] },
       { kind := RowKind.expandedArea, key := 3
         classes := cxList ["sort-table__row", "sort-table__row--body",
           "sort-table__row--expanded-area"]
         cells := [TCell.blank,
           TCell.span (cxList ["sort-table__cell"]) props.columns.length
             (cfg.expandedContent rowIndex)]
         clickCalls := [] }]
    else [baseRow]
  | none => [baseRow]

/-- The class list of one header `<th>`, translated from the `classes`
array pushes in `render`. -/
def headerCellClasses {K ν ε : Type} [DecidableEq K]
    (props : TableProps K ν ε) (colIndex : Nat) (c : SortableColumn K ν) :
    List String :=
  cxList (["sort-table__cell"] ++
    (if c.sortKey ≠ SortKeyVal.undef then
      ["sort-table__cell--sortable"] ++
      (if c.sortKey = props.sortSetting.sortKey then
        [if props.sortSetting.ascending then "sort-table__cell--ascending"
         else "sort-table__cell--descending"]
       else [])
     else []) ++
    (if props.firstCellBordered && colIndex == 0 then
      ["sort-table__cell--header"] else []))

/-- One header `<th>` as built inside `render`'s column map. -/
def renderHeaderCell {K ν ε : Type} [DecidableEq K]
    (props : TableProps K ν ε) (colIndex : Nat) (c : SortableColumn K ν) :
    HeaderCell K ν :=
  { classes := headerCellClasses props colIndex c
    title := c.title
    onClick := if c.sortKey = SortKeyVal.undef then none else some c.sortKey
    titleAlign := c.titleAlign
    sortActions := c.sortKey ≠ SortKeyVal.undef }

/-- Activating a header cell: with no handler nothing happens, otherwise the
captured `clickSort` closure runs against the current props. -/
def activateHeader {K ν ε : Type} [DecidableEq K] (props : TableProps K ν ε)
    (hc : HeaderCell K ν) : List (SortSetting K) :=
  match hc.onClick with
  | none => []
  | some k => clickSortCalls props.sortSetting k

/-- lodash `times(n, f)` index list: empty for `n < 1`, else `0 .. n-1`. -/
def jsTimes (n : Int) : List Nat :=
  if n < 1 then [] else List.range n.toNat

/-- JavaScript truthiness of `loadingLabel && <span>` : the label is shown
only when present and non-empty. -/
def jsTruthyStr : Option String → Option String
  | none => none
  | some s => if s = "" then none else some s

/-- `render` from the source. -/
def render {K ν ε : Type} [DecidableEq K] (props : TableProps K ν ε)
    (st : CompState) : Rendered K ν ε :=
  if props.empty then Rendered.emptyView props.emptyProps
  else Rendered.table
    { wrapperClasses := cxList ["cl-table-wrapper"]
      tableClasses := cxList ("sort-table" :: optClass props.className)
      headerRow :=
        { classes := cxList ["sort-table__row", "sort-table__row--header"]
          leadingBlank := props.expandableConfig.isSome
          cells := props.columns.mapIdx
            (fun ci c => renderHeaderCell props ci c) }
      bodyRows :=
        if props.loading then []
        else (jsTimes props.count).flatMap (renderRow props st)
      loadingIndicator :=
        if props.loading then some (jsTruthyStr props.loadingLabel) else none
      noResults :=
        if props.count = 0 then some props.renderNoResult else none }

/-- The body rows of a render (empty for the empty-state view). -/
def renderedBodyRows {K ν ε : Type} : Rendered K ν ε → List (BodyRow ν)
  | Rendered.emptyView _ => []
  | Rendered.table t => t.bodyRows

/-- The header cells of a render (empty for the empty-state view). -/
def renderedHeaderCells {K ν ε : Type} :
    Rendered K ν ε → List (HeaderCell K ν)
  | Rendered.emptyView _ => []
  | Rendered.table t => t.headerRow.cells

/-- The "no results" slot of a render (`none` for the empty-state view). -/
def renderedNoResults {K ν ε : Type} : Rendered K ν ε → Option (Option ν)
  | Rendered.emptyView _ => none
  | Rendered.table t => t.noResults

/-- The body data rows of a render: the rows emitted as main data rows, not
spacers or expanded-content rows. -/
def dataRows {K ν ε : Type} (r : Rendered K ν ε) : List (BodyRow ν) :=
  (renderedBodyRows r).filter (fun row => row.kind == RowKind.data)

/-- `flatMap` with a singleton-producing function is `map`. -/
theorem flatMap_singleton_fn {α β : Type _} (l : List α) (f : α → β) :
    l.flatMap (fun x => [f x]) = l.map f := by
  induction l with
  | nil => rfl
  | cons a t ih => simp [List.flatMap_cons, ih]

/-- For a non-negative count, lodash `times` iterates `0 .. count-1`. -/
theorem jsTimes_of_nonneg {n : Int} (h : 0 ≤ n) :
    jsTimes n = List.range n.toNat := by
  unfold jsTimes
  split
  · next hlt =>
      have h0 : n.toNat = 0 := by omega
      rw [h0]
      rfl
  · rfl

/-- For a count below one, lodash `times` iterates nothing. -/
theorem jsTimes_of_lt_one {n : Int} (h : n < 1) : jsTimes n = [] := by
  unfold jsTimes
  rw [if_pos h]

/-- Filtering `renderRow`'s output down to the main body data rows leaves
exactly one row, keyed by the row index. -/
theorem renderRow_filter_data {K ν ε : Type} [DecidableEq K]
    (props : TableProps K ν ε) (st : CompState) (i : Nat) :
    ((renderRow props st i).filter
        (fun row => row.kind == RowKind.data)).map BodyRow.key = [i] := by
  unfold renderRow
  cases hcfg : props.expandableConfig with
  | none => simp
  | some cfg =>
      by_cases hexp : cfg.rowIsExpanded i <;> simp [hexp]

/-- C2: with `empty` unset and a non-negative `count`, `render` emits exactly
one body data row per row index in `[0, count)` when `loading` is false, and
no body data rows when `loading` is true. -/
theorem render_data_row_count {K ν ε : Type} [DecidableEq K]
    (props : TableProps K ν ε) (st : CompState)
    (hempty : props.empty = false) (hcount : 0 ≤ props.count) :
    (props.loading = false →
      (dataRows (render props st)).map BodyRow.key =
        List.range props.count.toNat) ∧
    (props.loading = true → dataRows (render props st) = []) := by
  constructor
  · intro hl
    simp only [dataRows, render, hempty, Bool.false_eq_true, if_false,
      renderedBodyRows, hl]
    rw [List.filter_flatMap, List.map_flatMap]
    have hrows : ∀ i ∈ jsTimes props.count,
        ((renderRow props st i).filter
          (fun row => row.kind == RowKind.data)).map BodyRow.key = [i] :=
      fun i _ => renderRow_filter_data props st i
    rw [List.flatMap_congr hrows, flatMap_singleton_fn]
    simp [jsTimes_of_nonneg hcount]
  · intro hl
    simp [dataRows, render, hempty, hl, renderedBodyRows]

/-- Witness for `render_data_row_count` at concrete inputs. -/
theorem render_data_row_count_witness :
    (dataRows (render (K := String) (ε := Unit)
      { count := 3
        columns := [{ title := "Name", cell := fun i => toString i }] }
      initialState)).map BodyRow.key = List.range 3 :=
  (render_data_row_count
    { count := 3, columns := [{ title := "Name", cell := fun i => toString i }] }
    initialState rfl (by decide)).1 rfl

/-- C10: with `empty` unset and a negative `count`, `render` is total and
the body iteration is empty, so no body data rows are produced and no
column `cell` callback is consulted. -/
theorem render_negative_count {K ν ε : Type} [DecidableEq K]
    (props : TableProps K ν ε) (st : CompState)
    (hempty : props.empty = false) (hneg : props.count < 0) :
    renderedBodyRows (render props st) = [] ∧ jsTimes props.count = [] := by
  have ht : jsTimes props.count = [] := jsTimes_of_lt_one (by omega)
  refine ⟨?_, ht⟩
  by_cases hl : props.loading <;>
    simp [render, renderedBodyRows, hempty, hl, ht]

/-- Witness for `render_negative_count` at concrete inputs. -/
theorem render_negative_count_witness :
    renderedBodyRows (render (K := String) (ε := Unit)
      { count := -2
        columns := [{ title := "Name", cell := fun i => toString i }] }
      initialState) = [] :=
  (render_negative_count
    { count := -2
      columns := [{ title := "Name", cell := fun i => toString i }] }
    initialState rfl (by decide)).1

/-- Concrete props with `count = 0` while `loading` is true: the table is
still rendered (not the empty state) and the "no results" slot is filled. -/
def loadingZeroCountProps : TableProps String String Unit :=
  { count := 0
    columns := []
    loading := true
    renderNoResult := some "no data" }

/-- C3 counterexample: the "no results" placeholder IS rendered while
`loading` is true, because the source guards it on `count === 0` alone;
this refutes "never rendered while loading is true". -/
theorem noResults_shown_while_loading :
    (renderedNoResults (render loadingZeroCountProps initialState)).isSome
        = true ∧
    loadingZeroCountProps.loading = true ∧
    loadingZeroCountProps.count = 0 := by
  refine ⟨?_, rfl, rfl⟩
  simp [render, renderedNoResults, loadingZeroCountProps]

/-- C3 (amended): with `empty` unset, the "no results" placeholder is
rendered if and only if `count = 0`, regardless of `loading`; in particular
it is never rendered when `count ≠ 0`. -/
theorem noResults_iff_count_zero {K ν ε : Type} [DecidableEq K]
    (props : TableProps K ν ε) (st : CompState)
    (hempty : props.empty = false) :
    (renderedNoResults (render props st)).isSome = true ↔ props.count = 0 := by
  by_cases hc : props.count = 0 <;>
    simp [render, renderedNoResults, hempty, hc]

/-- Witness for `noResults_iff_count_zero` at concrete inputs. -/
theorem noResults_iff_count_zero_witness :
    (renderedNoResults (render loadingZeroCountProps initialState)).isSome
        = true :=
  (noResults_iff_count_zero loadingZeroCountProps initialState rfl).mpr rfl

/-- C4: when `empty` is set, `render` returns only the external empty-state
view carrying the supplied `emptyProps` unchanged, whatever the other props
and the component state. -/
theorem render_empty_delegates {K ν ε : Type} [DecidableEq K]
    (props : TableProps K ν ε) (st : CompState) (h : props.empty = true) :
    render props st = Rendered.emptyView props.emptyProps := by
  simp [render, h]

/-- Witness for `render_empty_delegates` at concrete inputs. -/
theorem render_empty_delegates_witness :
    render (K := String) (ν := String)
      { count := 5, columns := [], empty := true, emptyProps := some 7 }
      initialState = Rendered.emptyView (some 7) :=
  render_empty_delegates
    { count := 5, columns := [], empty := true, emptyProps := some 7 }
    initialState rfl

/-- C5: a header cell is wired to `clickSort` with the column's `sortKey`
(and marked sortable) iff the column defines a `sortKey`; activating the
header of a column without one performs no `onChangeSortSetting` call. -/
theorem header_sortable_iff {K ν ε : Type} [DecidableEq K]
    (props : TableProps K ν ε) (st : CompState) (ci : Nat)
    (c : SortableColumn K ν)
    (hempty : props.empty = false) (hcol : props.columns[ci]? = some c) :
    ∃ hc : HeaderCell K ν,
      (renderedHeaderCells (render props st))[ci]? = some hc ∧
      (hc.onClick.isSome ↔ c.sortKey ≠ SortKeyVal.undef) ∧
      (c.sortKey ≠ SortKeyVal.undef →
        hc.onClick = some c.sortKey ∧
        activateHeader props hc = clickSortCalls props.sortSetting c.sortKey ∧
        "sort-table__cell--sortable" ∈ hc.classes) ∧
      (c.sortKey = SortKeyVal.undef →
        hc.onClick = none ∧ activateHeader props hc = [] ∧
        "sort-table__cell--sortable" ∉ hc.classes) := by
  refine ⟨renderHeaderCell props ci c, ?_, ?_, ?_, ?_⟩
  · simp [render, hempty, renderedHeaderCells, List.getElem?_mapIdx, hcol]
  · by_cases h : c.sortKey = SortKeyVal.undef <;> simp [renderHeaderCell, h]
  · intro h
    refine ⟨by simp [renderHeaderCell, h], ?_, ?_⟩
    · simp [activateHeader, renderHeaderCell, h]
    · simp [renderHeaderCell, headerCellClasses, cxList, h]
  · intro h
    refine ⟨by simp [renderHeaderCell, h], ?_, ?_⟩
    · simp [activateHeader, renderHeaderCell, h]
    · simp [renderHeaderCell, headerCellClasses, cxList, h]

/-- Concrete two-column props: "Name" unsortable, "Age" sortable. -/
def twoColProps : TableProps String String Unit :=
  { count := 3
    columns :=
      [{ title := "Name", cell := fun i => toString i },
       { title := "Age", cell := fun i => toString i,
         sortKey := SortKeyVal.key "age" }] }

/-- Witness for `header_sortable_iff`: in `twoColProps` the "Age" header is
wired to its sort key. -/
theorem header_sortable_iff_witness :
    ((renderedHeaderCells (render twoColProps initialState))[1]?.map
      HeaderCell.onClick) = some (some (SortKeyVal.key "age")) := by
  obtain ⟨hc, h1, _, h3, _⟩ := header_sortable_iff twoColProps initialState 1
    { title := "Age", cell := fun i => toString i,
      sortKey := SortKeyVal.key "age" } rfl rfl
  rw [h1]
  simp [(h3 (by simp)).1]

/-- C6: with expansion enabled, an expanded row renders as exactly three
rows — the body data row, a zero-content spacer with the same striping
classes, and an expanded-content row whose content cell spans all
`columns.length` data columns and holds `expandedContent(i)`; a collapsed
row, or any row without `expandableConfig`, renders as exactly one row. -/
theorem renderRow_expanded_shape {K ν ε : Type} [DecidableEq K]
    (props : TableProps K ν ε) (st : CompState) (i : Nat) :
    (∀ cfg, props.expandableConfig = some cfg → cfg.rowIsExpanded i = true →
      ∃ br : BodyRow ν,
        renderRow props st i =
          [br,
           { kind := RowKind.spacer, key := 2, classes := br.classes,
             cells := [], clickCalls := [] },
           { kind := RowKind.expandedArea, key := 3
             classes := cxList ["sort-table__row", "sort-table__row--body",
               "sort-table__row--expanded-area"]
             cells := [TCell.blank,
               TCell.span (cxList ["sort-table__cell"]) props.columns.length
                 (cfg.expandedContent i)]
             clickCalls := [] }] ∧
        br.kind = RowKind.data) ∧
    (∀ cfg, props.expandableConfig = some cfg → cfg.rowIsExpanded i = false →
      ∃ br : BodyRow ν,
        renderRow props st i = [br] ∧ br.kind = RowKind.data) ∧
    (props.expandableConfig = none →
      ∃ br : BodyRow ν,
        renderRow props st i = [br] ∧ br.kind = RowKind.data) := by
  refine ⟨?_, ?_, ?_⟩
  · intro cfg hcfg hexp
    unfold renderRow
    rw [hcfg]
    simp only [Option.isSome_some, if_true, hexp, ite_true]
    exact ⟨_, rfl, rfl⟩
  · intro cfg hcfg hexp
    unfold renderRow
    rw [hcfg]
    simp only [Option.isSome_some, if_true, hexp, ite_false, Bool.false_eq_true]
    exact ⟨_, rfl, rfl⟩
  · intro hcfg
    unfold renderRow
    rw [hcfg]
    exact ⟨_, rfl, rfl⟩

/-- Concrete props whose single row is expandable and expanded. -/
def expandedProps : TableProps String String Unit :=
  { count := 1
    columns := [{ title := "Name", cell := fun i => toString i }]
    expandableConfig := some
      { rowIsExpanded := fun _ => true
        expandedContent := fun i => toString i } }

/-- Witness for `renderRow_expanded_shape`: the expanded concrete row
renders as three rows. -/
theorem renderRow_expanded_shape_witness :
    (renderRow expandedProps initialState 0).length = 3 := by
  obtain ⟨br, heq, _⟩ :=
    (renderRow_expanded_shape expandedProps initialState 0).1 _ rfl rfl
  rw [heq]
  rfl

/-- The caller-visible content of a `<td>`: the node a callback produced,
if any. -/
def cellContent {ν : Type} : TCell ν → Option ν
  | TCell.expansionControl _ _ => none
  | TCell.data _ x => some x
  | TCell.blank => none
  | TCell.span _ _ x => some x

/-- Mapping an index-independent projection over `mapIdx` is a plain map. -/
theorem map_mapIdx_eq_map {α β γ : Type _} (l : List α) (f : Nat → α → β)
    (g : β → γ) (h : α → γ) (hfg : ∀ i a, g (f i a) = h a) :
    (l.mapIdx f).map g = l.map h := by
  rw [List.mapIdx_eq_enum_map, List.map_map]
  have heq : (g ∘ Function.uncurry f) = (fun p : Nat × α => h p.2) := by
    funext p
    exact hfg p.1 p.2
  rw [heq]
  have heq2 : (fun p : Nat × α => h p.2) = h ∘ Prod.snd := rfl
  rw [heq2, ← List.map_map, List.enum_map_snd]

/-- C7: with expansion enabled, the body row leads with the toggle cell
(expanded glyph `▼` iff `rowIsExpanded i`), followed by exactly one cell
per column containing `column.cell i`, and its click handler performs
exactly one `onChangeExpansion (i, not (rowIsExpanded i))` call. -/
theorem renderRow_body_row {K ν ε : Type} [DecidableEq K]
    (props : TableProps K ν ε) (st : CompState) (i : Nat)
    (cfg : ExpandableConfig ν) (hcfg : props.expandableConfig = some cfg) :
    ∃ (br : BodyRow ν) (rest : List (BodyRow ν)),
      renderRow props st i = br :: rest ∧
      br.cells.head? = some (TCell.expansionControl
        (cxList ["sort-table__cell", "sort-table__cell__expansion-control"])
        (if cfg.rowIsExpanded i then "▼" else "▶")) ∧
      br.cells.map cellContent =
        none :: props.columns.map (fun c => some (c.cell i)) ∧
      br.clickCalls = [(i, !cfg.rowIsExpanded i)] := by
  have hcells : ∀ br2 : BodyRow ν,
      br2.cells = ([expansionControl (cfg.rowIsExpanded i)] ++
        props.columns.mapIdx (fun ci c => bodyDataCell props i ci c)) →
      br2.cells.map cellContent =
        none :: props.columns.map (fun c => some (c.cell i)) := by
    intro br2 hb
    rw [hb, List.singleton_append, List.map_cons,
      map_mapIdx_eq_map props.columns
        (fun ci c => bodyDataCell props i ci c) cellContent
        (fun c => some (c.cell i)) (fun ci c => rfl)]
    rfl
  unfold renderRow
  rw [hcfg]
  cases hexp : cfg.rowIsExpanded i
  · simp only [Option.isSome_some, if_true, hexp, ite_false, Bool.false_eq_true]
    exact ⟨_, _, rfl, rfl, hcells _ (by rw [hexp]), rfl⟩
  · simp only [Option.isSome_some, if_true, hexp, ite_true]
    exact ⟨_, _, rfl, rfl, hcells _ (by rw [hexp]), rfl⟩

/-- Witness for `renderRow_body_row`: clicking the expanded concrete row
requests collapsing it. -/
theorem renderRow_body_row_witness :
    (renderRow expandedProps initialState 0).head?.map BodyRow.clickCalls
      = some [(0, false)] := by
  obtain ⟨br, rest, heq, _, _, hclick⟩ :=
    renderRow_body_row expandedProps initialState 0 _ rfl
  rw [heq]
  simp only [List.head?_cons, Option.map_some']
  rw [hclick]
  rfl

/-- With `activeIndex = NaN` (its initial, never-updated value), the
`drawer-active` class never enters a row's striping classes, as long as the
caller's `rowClass` does not itself supply that string. -/
theorem drawer_not_mem {K ν ε : Type} (props : TableProps K ν ε)
    (st : CompState) (hst : st.activeIndex = JSNum.nan)
    (hrc : ∀ i, props.rowClass i ≠ "drawer-active") (i : Nat) :
    "drawer-active" ∉ rowStripeClasses props st i := by
  intro hmem
  unfold rowStripeClasses cxList at hmem
  rw [hst] at hmem
  rw [List.mem_filter] at hmem
  obtain ⟨hmem, -⟩ := hmem
  simp only [jsNumEqNat, List.mem_append, List.mem_cons,
    List.not_mem_nil, or_false, List.mem_singleton] at hmem
  rcases hmem with h | h
  · simp at h
    exact hrc i h.symm
  · split at h
    · simp at h
    · exact List.not_mem_nil _ h

/-- C8: rendering does not observe the internal component state. The state
is fixed at `{visible := false, activeIndex := NaN}` (no `setState` exists),
and for any two states with the never-updated `activeIndex = NaN` the output
markup is identical; moreover the `drawer-active` class never appears on a
body row (provided the caller's `rowClass` does not itself emit it). -/
theorem render_state_independent {K ν ε : Type} [DecidableEq K]
    (props : TableProps K ν ε) (s1 s2 : CompState)
    (h1 : s1.activeIndex = JSNum.nan) (h2 : s2.activeIndex = JSNum.nan)
    (hrc : ∀ i, props.rowClass i ≠ "drawer-active") :
    render props s1 = render props s2 ∧
    ∀ r ∈ renderedBodyRows (render props s1),
      "drawer-active" ∉ r.classes := by
  constructor
  · obtain ⟨v1, a1⟩ := s1
    obtain ⟨v2, a2⟩ := s2
    simp only at h1 h2
    subst h1
    subst h2
    rfl
  · intro r hr
    by_cases hempty : props.empty
    · simp [render, renderedBodyRows, hempty] at hr
    · by_cases hl : props.loading
      · simp [render, renderedBodyRows, hempty, hl] at hr
      · simp only [render, renderedBodyRows, hempty, hl, Bool.false_eq_true,
          if_false, ite_false] at hr
        rw [List.mem_flatMap] at hr
        obtain ⟨i, -, hri⟩ := hr
        unfold renderRow at hri
        cases hcfg : props.expandableConfig with
        | none =>
          rw [hcfg] at hri
          simp only [List.mem_singleton] at hri
          rw [hri]
          exact drawer_not_mem props s1 h1 hrc i
        | some cfg =>
          rw [hcfg] at hri
          by_cases hexp : cfg.rowIsExpanded i
          · simp only [hexp, ite_true, List.mem_cons,
              List.not_mem_nil, or_false] at hri
            rcases hri with hri | hri | hri <;> rw [hri]
            · exact drawer_not_mem props s1 h1 hrc i
            · exact drawer_not_mem props s1 h1 hrc i
            · show "drawer-active" ∉ cxList ["sort-table__row",
                "sort-table__row--body", "sort-table__row--expanded-area"]
              decide
          · simp only [hexp, ite_false, Bool.false_eq_true,
              List.mem_singleton] at hri
            rw [hri]
            exact drawer_not_mem props s1 h1 hrc i

/-- Witness for `render_state_independent`: two different states with the
initial `NaN` active index render the concrete table identically. -/
theorem render_state_independent_witness :
    render twoColProps initialState
      = render twoColProps ⟨true, JSNum.nan⟩ :=
  (render_state_independent twoColProps initialState ⟨true, JSNum.nan⟩
    rfl rfl (fun _ => by simp [twoColProps])).1
